import Mathlib

/-!
Verification of the drivio release-notes engine (`pkg/git/analyzer.go`,
`pkg/git/formatter.go`, `pkg/cmd/release-notes.go`).

The Go code is shallowly embedded below.  Each definition mirrors one Go
function; machine strings are Lean `String`s manipulated through their
`List Char` data, Go's `([]T, error)` results are `Except String T`,
`time.Time` values are calendar records, and `plumbing.Hash` is a byte list.
Go's `strings.ToLower` is modelled for ASCII letters only (the sole use is
matching the ASCII marker "breaking change"); `strings.TrimSpace` uses the
full `unicode.IsSpace` set.
-/

namespace Drivio

/-- Character class of Go `unicode.IsSpace`, used by `strings.TrimSpace`. -/
def goIsSpace (c : Char) : Bool :=
  let n := c.toNat
  n == 9 || n == 10 || n == 11 || n == 12 || n == 13 || n == 32 ||
  n == 0x85 || n == 0xA0 || n == 0x1680 ||
  (0x2000 ≤ n && n ≤ 0x200A) || n == 0x2028 || n == 0x2029 ||
  n == 0x202F || n == 0x205F || n == 0x3000

/-- Character class of `\s` in Go's RE2 regexp syntax: `[\t\n\f\r ]`. -/
def isRegexSpace (c : Char) : Bool :=
  let n := c.toNat
  n == 9 || n == 10 || n == 12 || n == 13 || n == 32

/-- Character class of `\w` in Go's RE2 regexp syntax: `[0-9A-Za-z_]`. -/
def isWordChar (c : Char) : Bool :=
  let n := c.toNat
  (97 ≤ n && n ≤ 122) || (65 ≤ n && n ≤ 90) || (48 ≤ n && n ≤ 57) || n == 95

/-- ASCII part of the simple case mapping applied by Go `strings.ToLower`. -/
def goLowerChar (c : Char) : Char :=
  let n := c.toNat
  if 65 ≤ n && n ≤ 90 then Char.ofNat (n + 32) else c

/-- Go `strings.ToLower` (ASCII letters; other characters kept). -/
def goToLower (s : String) : String := ⟨s.data.map goLowerChar⟩

/-- List-level prefix test; `startsWithL p l` is Go `strings.HasPrefix(l, p)`. -/
def startsWithL : List Char → List Char → Bool
  | [], _ => true
  | _ :: _, [] => false
  | p :: ps, c :: cs => p == c && startsWithL ps cs

/-- List-level substring test, needle first: Go `strings.Contains(hay, needle)`. -/
def containsL (needle : List Char) : List Char → Bool
  | [] => startsWithL needle []
  | c :: cs => startsWithL needle (c :: cs) || containsL needle cs

/-- Go `strings.Contains(s, sub)`. -/
def goContains (s sub : String) : Bool := containsL sub.data s.data

/-- Go `strings.HasPrefix(s, p)`. -/
def goHasPrefixStr (s p : String) : Bool := startsWithL p.data s.data

/-- Left half of Go `strings.TrimSpace`. -/
def trimLeftL (l : List Char) : List Char := l.dropWhile goIsSpace

/-- Right half of Go `strings.TrimSpace`. -/
def trimRightL (l : List Char) : List Char := (l.reverse.dropWhile goIsSpace).reverse

/-- Go `strings.TrimSpace`. -/
def goTrimSpace (s : String) : String := ⟨trimRightL (trimLeftL s.data)⟩

/-- Go `strings.Split(s, "\n")` at the character-list level. -/
def splitNlL : List Char → List (List Char)
  | [] => [[]]
  | c :: cs =>
    if c == '\n' then [] :: splitNlL cs
    else
      match splitNlL cs with
      | [] => [[c]]
      | h :: t => (c :: h) :: t

/-- Go `strings.Split(s, "\n")`. -/
def goSplitLines (s : String) : List String := (splitNlL s.data).map (fun l => (⟨l⟩ : String))

/-- First line of a message: head of `strings.Split(message, "\n")`. -/
def firstLineOf (s : String) : String := (goSplitLines s).headD ("")

/-!
The conventional-commit header regexp of `parseConventionalCommit`
(`analyzer.go` line 1638): `^(\w+)(?:\(([^)]+)\))?:\s*(.+)$`.
The matcher below is the determinisation of that anchored pattern under
Go's leftmost-first semantics: `\w+` and `[^)]+` are maximal runs (a
shorter run would leave a word character, respectively a non-`)`
character, where `(`/`:` respectively `)` is required), and `\s*` yields
back at most one character so that `.+` is non-empty.
-/

/-- The `\s*(.+)$` tail of the header regexp, applied after the colon. -/
def subjectAfterColon (r : List Char) : Option (List Char) :=
  if r.length == 0 then none
  else some (r.drop (min (r.takeWhile isRegexSpace).length (r.length - 1)))

/-- Matcher for the header regexp; returns `(type, scope, subject)` captures. -/
def parseHeader (h : List Char) : Option (List Char × List Char × List Char) :=
  let ty := h.takeWhile isWordChar
  if ty.length == 0 then none
  else
    match h.drop ty.length with
    | [] => none
    | c :: r1 =>
      if c == '(' then
        let sc := r1.takeWhile (fun ch => !(ch == ')'))
        if sc.length == 0 then none
        else
          match r1.drop sc.length with
          | [] => none
          | c2 :: rest2 =>
            if c2 == ')' then
              match rest2 with
              | [] => none
              | c3 :: r2 =>
                if c3 == ':' then (subjectAfterColon r2).map (fun subj => (ty, sc, subj))
                else none
            else none
      else if c == ':' then (subjectAfterColon r1).map (fun subj => (ty, [], subj))
      else none

/-- Go `git.CommitType`: a string-typed tag. -/
abbrev CommitType := String

def CommitTypeFeature : CommitType := "feat"
def CommitTypeFix : CommitType := "fix"
def CommitTypeDocs : CommitType := "docs"
def CommitTypeStyle : CommitType := "style"
def CommitTypeRefactor : CommitType := "refactor"
def CommitTypeTest : CommitType := "test"
def CommitTypeChore : CommitType := "chore"
def CommitTypeBreaking : CommitType := "breaking"
def CommitTypeUnknown : CommitType := "unknown"

/-- The breaking-change marker searched for (lower-cased text). -/
def breakingMarker : String := "breaking change"

/-- Merge-commit subject marker of `GenerateReleaseNotes`. -/
def mergeMarker : String := "Merge pull request"

/-- Result tuple of Go `parseConventionalCommit`, in the source's order. -/
structure ParsedMessage where
  type : CommitType
  scope : String
  subject : String
  body : String
  footer : String
  breaking : Bool
deriving DecidableEq

/-- Line accumulation of `strings.Builder` with a "\n" separator once non-empty. -/
def appendLine (acc line : String) : String :=
  if acc.length == 0 then line else acc ++ "\n" ++ line

/-- The body/footer loop of `parseConventionalCommit` (lines 1660-1686).
`prevBlankOk` carries the Go condition `i > 1 && TrimSpace(lines[i-1]) == ""`
into the next iteration. -/
def bodyFooterStep : List String → Bool → Bool → String → String → String × String
  | [], _, _, body, footer => (body, footer)
  | raw :: rest, prevBlankOk, inFooter, body, footer =>
    let line := goTrimSpace raw
    let lineBlank := line.length == 0
    if lineBlank then bodyFooterStep rest lineBlank inFooter body footer
    else
      let inFooterNext := if goContains line (":") && !inFooter && prevBlankOk then true else inFooter
      if inFooterNext then bodyFooterStep rest lineBlank true body (appendLine footer line)
      else bodyFooterStep rest lineBlank false (appendLine body line) footer

/-- Go `(*Analyzer).parseConventionalCommit` (analyzer.go lines 1628-1698). -/
def parseConventionalCommit (message : String) : ParsedMessage :=
  match goSplitLines message with
  | [] => ⟨CommitTypeUnknown, "", "", "", "", false⟩
  | rawHeader :: rest =>
    let header := goTrimSpace rawHeader
    match parseHeader header.data with
    | none => ⟨CommitTypeUnknown, "", header, "", "", false⟩
    | some (tyRaw, scopeRaw, subjectRaw) =>
      let headerBreaking := goContains (goToLower header) breakingMarker
      let commitType1 := if headerBreaking then CommitTypeBreaking else goToLower ⟨tyRaw⟩
      let bf := bodyFooterStep rest false false ("") ("")
      let bodyBreaking :=
        goContains (goToLower bf.1) breakingMarker || goContains (goToLower bf.2) breakingMarker
      let commitType2 := if bodyBreaking then CommitTypeBreaking else commitType1
      ⟨commitType2, ⟨scopeRaw⟩, ⟨subjectRaw⟩, bf.1, bf.2, headerBreaking || bodyBreaking⟩

/-- Calendar view of a Go `time.Time`; `zone` is the offset text that
`Format(time.RFC3339)` appends (`"Z"` for UTC). -/
structure GoTime where
  year : Nat
  month : Nat
  day : Nat
  hour : Nat
  minute : Nat
  second : Nat
  zone : String
deriving DecidableEq

/-- Go `plumbing.Hash`: a byte sequence (20 bytes in the real type). -/
abbrev Hash := List Nat

/-- Go `plumbing.ZeroHash`. -/
def zeroHash : Hash := List.replicate 20 0

/-- Value of one hexadecimal digit, as in Go `encoding/hex.fromHexChar`. -/
def hexDigitVal (c : Char) : Option Nat :=
  let n := c.toNat
  if 48 ≤ n && n ≤ 57 then some (n - 48)
  else if 97 ≤ n && n ≤ 102 then some (n - 87)
  else if 65 ≤ n && n ≤ 70 then some (n - 55)
  else none

/-- Go `hex.DecodeString` with the error discarded, as in `plumbing.NewHash`:
full pairs decoded before the first bad or odd character are kept. -/
def hexDecodePairs : List Char → List Nat
  | c1 :: c2 :: rest =>
    match hexDigitVal c1, hexDigitVal c2 with
    | some hi, some lo => (hi * 16 + lo) :: hexDecodePairs rest
    | _, _ => []
  | _ => []

/-- Go `plumbing.NewHash`: decode hex, copy into a zeroed 20-byte array. -/
def newHash (s : String) : Hash :=
  let bytes := (hexDecodePairs s.data).take 20
  bytes ++ List.replicate (20 - bytes.length) 0

/-- Lower-case hex digit, as printed by `Hash.String()`. -/
def hexChar (n : Nat) : Char :=
  Char.ofNat (if n < 10 then 48 + n else 87 + n)

/-- Hex rendering of a byte list. -/
def hashHexL : List Nat → List Char
  | [] => []
  | b :: rest => hexChar (b / 16 % 16) :: hexChar (b % 16) :: hashHexL rest

/-- Go `plumbing.Hash.String()`. -/
def hashString (h : Hash) : String := ⟨hashHexL h⟩

/-- The fields of a go-git `object.Commit` read by the analyzer. -/
structure GoCommit where
  hash : Hash
  authorName : String
  authorEmail : String
  authorWhen : GoTime
  message : String
deriving DecidableEq

/-- Go `git.CommitInfo` (analyzer.go lines 1426-1438). -/
structure CommitInfo where
  Hash : String
  Author : String
  Email : String
  Date : GoTime
  Message : String
  «Type» : CommitType
  Scope : String
  Subject : String
  Body : String
  Breaking : Bool
  Footer : String
deriving DecidableEq

/-- Go `git.CommitStatistics` (analyzer.go lines 1452-1463). -/
structure CommitStatistics where
  Total : Nat
  Features : Nat
  Fixes : Nat
  Docs : Nat
  Style : Nat
  Refactor : Nat
  Test : Nat
  Chore : Nat
  Breaking : Nat
  Unknown : Nat
deriving DecidableEq

/-- The zero value `git.CommitStatistics{}`. -/
def emptyStats : CommitStatistics := ⟨0, 0, 0, 0, 0, 0, 0, 0, 0, 0⟩

/-- The statistics switch shared by `calculateStatistics`
(release-notes.go lines 702-723) and `GenerateReleaseNotes`
(analyzer.go lines 1514-1534): bump `Total` and the counter of one type. -/
def incStat (stats : CommitStatistics) (t : CommitType) : CommitStatistics :=
  let s := { stats with Total := stats.Total + 1 }
  if t == CommitTypeFeature then { s with Features := s.Features + 1 }
  else if t == CommitTypeFix then { s with Fixes := s.Fixes + 1 }
  else if t == CommitTypeDocs then { s with Docs := s.Docs + 1 }
  else if t == CommitTypeStyle then { s with Style := s.Style + 1 }
  else if t == CommitTypeRefactor then { s with Refactor := s.Refactor + 1 }
  else if t == CommitTypeTest then { s with Test := s.Test + 1 }
  else if t == CommitTypeChore then { s with Chore := s.Chore + 1 }
  else if t == CommitTypeBreaking then { s with Breaking := s.Breaking + 1 }
  else { s with Unknown := s.Unknown + 1 }

/-- Go `calculateStatistics` (release-notes.go lines 699-727). -/
def calculateStatistics (commits : List CommitInfo) : CommitStatistics :=
  commits.foldl (fun stats c => incStat stats c.«Type») emptyStats

/-- Go `filterCommits` (release-notes.go lines 656-696). -/
def filterCommits (commits : List CommitInfo) (includeTypes excludeTypes : List String) :
    List CommitInfo :=
  if includeTypes.length == 0 && excludeTypes.length == 0 then commits
  else
    commits.foldl
      (fun acc commit =>
        if !(includeTypes.length == 0) && !(includeTypes.any (fun t => commit.«Type» == t)) then acc
        else if !(excludeTypes.length == 0) && excludeTypes.any (fun t => commit.«Type» == t) then acc
        else acc ++ [commit])
      []

/-- Go `(*Analyzer).analyzeCommit` (analyzer.go lines 1612-1625). -/
def analyzeCommit (c : GoCommit) : CommitInfo :=
  let p := parseConventionalCommit c.message
  { Hash := hashString c.hash, Author := c.authorName, Email := c.authorEmail,
    Date := c.authorWhen, Message := c.message, «Type» := p.type, Scope := p.scope,
    Subject := p.subject, Body := p.body, Breaking := p.breaking, Footer := p.footer }

/-- The `commitIter.ForEach` body of `getCommitsBetween` (analyzer.go lines
1587-1596): collect commits from the newest-first log until `from` is met. -/
def collectUntilFrom (fromHash : Hash) : List GoCommit → List GoCommit
  | [] => []
  | c :: rest => if c.hash == fromHash then [] else c :: collectUntilFrom fromHash rest

/-- Go `(*Analyzer).getCommitsBetween` (analyzer.go lines 1574-1609).
`logCommits` is the newest-first ancestry listing `repo.Log({From: to})`;
the collected commits are reversed into chronological order.  The error
component mirrors the Go `([]*object.Commit, error)` pair: the traversal
itself never produces a non-nil error. -/
def getCommitsBetween (fromHash : Hash) (logCommits : List GoCommit) :
    Except String (List GoCommit) :=
  .ok (collectUntilFrom fromHash logCommits).reverse

/-- Go `git.ReleaseNotes` (analyzer.go lines 1441-1449). -/
structure ReleaseNotes where
  FromRef : String
  ToRef : String
  FromHash : String
  ToHash : String
  GeneratedAt : GoTime
  Commits : List CommitInfo
  Statistics : CommitStatistics
deriving DecidableEq

/-- The per-commit loop of `GenerateReleaseNotes` (analyzer.go lines
1505-1535): analyze, drop subjects starting with `"Merge pull request"`,
append, and update statistics. -/
def analyzeLoop : List GoCommit → List CommitInfo × CommitStatistics →
    List CommitInfo × CommitStatistics
  | [], acc => acc
  | c :: rest, (infos, stats) =>
    let info := analyzeCommit c
    if goHasPrefixStr info.Subject mergeMarker then analyzeLoop rest (infos, stats)
    else analyzeLoop rest (infos ++ [info], incStat stats info.«Type»)

/-- Go `(*Analyzer).GenerateReleaseNotes` (analyzer.go lines 1483-1546) after
reference resolution and the range walk: `walked` is the chronological commit
list returned by `getCommitsBetween`, `now` the `time.Now()` sample. -/
def generateReleaseNotesFrom (fromRef toRef : String) (fromHash toHash : Hash)
    (now : GoTime) (walked : List GoCommit) : ReleaseNotes :=
  let r := analyzeLoop walked ([], emptyStats)
  ⟨fromRef, toRef, hashString fromHash, hashString toHash, now, r.1, r.2⟩

/-- Go `(*Analyzer).resolveReference` (analyzer.go lines 1549-1571).
`refs` and `tags` are the repository's named-reference and tag tables
(`repo.Reference` and `repo.Tag` successes). -/
def lookupRef (m : List (String × Hash)) (k : String) : Option Hash :=
  match m with
  | [] => none
  | (a, h) :: rest => if a == k then some h else lookupRef rest k

def resolveReference (refs tags : List (String × Hash)) (ref : String) : Except String Hash :=
  match lookupRef refs ref with
  | some h => .ok h
  | none =>
    match lookupRef tags ref with
    | some h => .ok h
    | none =>
      if 7 ≤ ref.utf8ByteSize then
        if newHash ref ≠ zeroHash then .ok (newHash ref)
        else .error ("could not resolve reference: " ++ ref)
      else .error ("could not resolve reference: " ++ ref)

/-- Zero-padded two-digit decimal, as in Go time formatting. -/
def pad2 (n : Nat) : String := if n < 10 then "0" ++ toString n else toString n

/-- Zero-padded four-digit decimal, as in Go time formatting. -/
def pad4 (n : Nat) : String :=
  if n < 10 then "000" ++ toString n
  else if n < 100 then "00" ++ toString n
  else if n < 1000 then "0" ++ toString n
  else toString n

/-- Go `t.Format(time.RFC3339)`. -/
def formatRFC3339 (t : GoTime) : String :=
  pad4 t.year ++ "-" ++ pad2 t.month ++ "-" ++ pad2 t.day ++ "T" ++
  pad2 t.hour ++ ":" ++ pad2 t.minute ++ ":" ++ pad2 t.second ++ t.zone

/-- Go `strings.ReplaceAll(s, quote, backslash-quote)` used on body/footer. -/
def escapeQuotesL : List Char → List Char
  | [] => []
  | c :: rest => if c == '"' then '\\' :: '"' :: escapeQuotesL rest else c :: escapeQuotesL rest

def escapeQuotes (s : String) : String := ⟨escapeQuotesL s.data⟩

/-- One commit object of `formatJSON` (formatter.go lines 1107-1127).
Only `Body` and `Footer` are quote-escaped; every other field is verbatim. -/
def formatJSONCommit (c : CommitInfo) : String :=
  "\n    \x7b\n      \"hash\": \"" ++ c.Hash ++
  "\",\n      \"author\": \"" ++ c.Author ++
  "\",\n      \"email\": \"" ++ c.Email ++
  "\",\n      \"date\": \"" ++ formatRFC3339 c.Date ++
  "\",\n      \"type\": \"" ++ c.«Type» ++
  "\",\n      \"scope\": \"" ++ c.Scope ++
  "\",\n      \"subject\": \"" ++ c.Subject ++
  "\",\n      \"body\": \"" ++ escapeQuotes c.Body ++
  "\",\n      \"breaking\": " ++ (if c.Breaking then "true" else "false") ++
  ",\n      \"footer\": \"" ++ escapeQuotes c.Footer ++ "\"\n    \x7d"

/-- The commit array of `formatJSON`, comma-separated after the first. -/
def formatJSONCommits : List CommitInfo → Bool → String
  | [], _ => ""
  | c :: rest, isFirst =>
    (if isFirst then "" else ",") ++ formatJSONCommit c ++ formatJSONCommits rest false

/-- Go `(*Formatter).formatJSON` (formatter.go lines 1079-1134). -/
def formatJSON (notes : ReleaseNotes) : String :=
  "\x7b\n  \"from_ref\": \"" ++ notes.FromRef ++
  "\",\n  \"to_ref\": \"" ++ notes.ToRef ++
  "\",\n  \"from_hash\": \"" ++ notes.FromHash ++
  "\",\n  \"to_hash\": \"" ++ notes.ToHash ++
  "\",\n  \"generated_at\": \"" ++ formatRFC3339 notes.GeneratedAt ++
  "\",\n  \"statistics\": \x7b\n    \"total\": " ++ toString notes.Statistics.Total ++
  ",\n    \"features\": " ++ toString notes.Statistics.Features ++
  ",\n    \"fixes\": " ++ toString notes.Statistics.Fixes ++
  ",\n    \"docs\": " ++ toString notes.Statistics.Docs ++
  ",\n    \"style\": " ++ toString notes.Statistics.Style ++
  ",\n    \"refactor\": " ++ toString notes.Statistics.Refactor ++
  ",\n    \"test\": " ++ toString notes.Statistics.Test ++
  ",\n    \"chore\": " ++ toString notes.Statistics.Chore ++
  ",\n    \"breaking\": " ++ toString notes.Statistics.Breaking ++
  ",\n    \"unknown\": " ++ toString notes.Statistics.Unknown ++
  "\n  \x7d,\n  \"commits\": [" ++ formatJSONCommits notes.Commits true ++ "\n  ]\n\x7d"

/-- Sum of the nine per-category counters of `CommitStatistics`. -/
def statsSum (s : CommitStatistics) : Nat :=
  s.Features + s.Fixes + s.Docs + s.Style + s.Refactor + s.Test + s.Chore +
  s.Breaking + s.Unknown

/-- A fixed timestamp used by the concrete sample inputs below. -/
def sampleTime : GoTime := ⟨2024, 5, 1, 12, 0, 0, ("Z")⟩

/-- A GitHub-style merge commit. -/
def sampleMergeCommit : GoCommit :=
  ⟨List.replicate 20 3, "bob", "bob@example.com", sampleTime,
   "Merge pull request #12 from owner/branch"⟩

def c6LogA : GoCommit :=
  ⟨List.replicate 20 10, "ann", "ann@example.com", sampleTime, "feat: one"⟩

def c6LogB : GoCommit :=
  ⟨List.replicate 20 11, "ann", "ann@example.com", sampleTime, "fix: two"⟩

def c6Solo : GoCommit :=
  ⟨List.replicate 20 7, "ann", "ann@example.com", sampleTime, "docs: three"⟩

def c10Commit : CommitInfo :=
  ⟨"aaaa", "ann", "ann@example.com", sampleTime, "feat: x", CommitTypeFeature,
   "", "x", "", false, ""⟩

/-- The boundary text standing between the rendered scope and subject values
in `formatJSON` output. -/
def c8mid : String := "\",\n      \"subject\": \""

def c8commit1 : CommitInfo :=
  ⟨"aaaa", "alice", "alice@example.com", sampleTime, "feat(a): b", CommitTypeFeature,
   "a", "b" ++ c8mid ++ "c", "", false, ""⟩

def c8commit2 : CommitInfo :=
  ⟨"aaaa", "alice", "alice@example.com", sampleTime, "feat(a): b", CommitTypeFeature,
   "a" ++ c8mid ++ "b", "c", "", false, ""⟩

def c8doc1 : ReleaseNotes :=
  ⟨"v1", "v2", "h1", "h2", sampleTime, [c8commit1], incStat emptyStats CommitTypeFeature⟩

def c8doc2 : ReleaseNotes :=
  ⟨"v1", "v2", "h1", "h2", sampleTime, [c8commit2], incStat emptyStats CommitTypeFeature⟩

/-! ### Helper lemmas -/

theorem splitNlL_ne_nil (l : List Char) : splitNlL l ≠ [] := by
  cases l with
  | nil => simp [splitNlL]
  | cons c cs =>
    unfold splitNlL
    by_cases h : c == '\n'
    · simp [h]
    · simp only [h, Bool.false_eq_true, if_false]
      cases splitNlL cs <;> simp

theorem goSplitLines_cons (s : String) :
    ∃ t, goSplitLines s = firstLineOf s :: t := by
  unfold firstLineOf goSplitLines
  cases h : splitNlL s.data with
  | nil => exact absurd h (splitNlL_ne_nil _)
  | cons a b => exact ⟨b.map (fun l => (⟨l⟩ : String)), by simp⟩

theorem startsWithL_iff (p l : List Char) : startsWithL p l = true ↔ ∃ r, l = p ++ r := by
  induction p generalizing l with
  | nil => simp [startsWithL]
  | cons a ps ih =>
    cases l with
    | nil => simp [startsWithL]
    | cons b bs =>
      simp only [startsWithL, Bool.and_eq_true, beq_iff_eq, ih]
      constructor
      · rintro ⟨rfl, r, rfl⟩; exact ⟨r, rfl⟩
      · rintro ⟨r, h⟩
        injection h with h1 h2
        exact ⟨h1.symm, r, h2⟩

theorem startsWithL_append (p r : List Char) : startsWithL p (p ++ r) = true := by
  rw [startsWithL_iff]; exact ⟨r, rfl⟩

theorem trimLeftL_cons_of_nonspace (a : Char) (l : List Char) (h : goIsSpace a = false) :
    trimLeftL (a :: l) = a :: l := by
  simp [trimLeftL, List.dropWhile_cons, h]

theorem trimRightL_append (p r : List Char) (hp : trimRightL p = p) :
    trimRightL (p ++ r) = p ++ trimRightL r := by
  unfold trimRightL at *
  rw [List.reverse_append, List.dropWhile_append]
  by_cases h : (r.reverse.dropWhile goIsSpace).isEmpty
  · rw [if_pos h]
    have hre : r.reverse.dropWhile goIsSpace = [] := List.isEmpty_iff.mp h
    rw [hre]
    simpa using hp
  · rw [if_neg h, List.reverse_append, List.reverse_reverse]

theorem parseHeader_after_merge (u : List Char) :
    parseHeader ('M' :: 'e' :: 'r' :: 'g' :: 'e' :: ' ' :: u) = none := rfl

theorem parse_of_header_none (msg rawHeader : String) (rest : List String)
    (h1 : goSplitLines msg = rawHeader :: rest)
    (h2 : parseHeader (goTrimSpace rawHeader).data = none) :
    parseConventionalCommit msg =
      ⟨CommitTypeUnknown, "", goTrimSpace rawHeader, "", "", false⟩ := by
  unfold parseConventionalCommit
  rw [h1]
  dsimp only
  rw [h2]

theorem parse_of_header_some (msg rawHeader : String) (rest : List String)
    (tyRaw scopeRaw subjectRaw : List Char)
    (h1 : goSplitLines msg = rawHeader :: rest)
    (h2 : parseHeader (goTrimSpace rawHeader).data = some (tyRaw, scopeRaw, subjectRaw)) :
    parseConventionalCommit msg =
      (let hb := goContains (goToLower (goTrimSpace rawHeader)) breakingMarker
       let bf := bodyFooterStep rest false false ("") ("")
       let bb := goContains (goToLower bf.1) breakingMarker ||
                 goContains (goToLower bf.2) breakingMarker
       ⟨if bb then CommitTypeBreaking else if hb then CommitTypeBreaking else goToLower ⟨tyRaw⟩,
        ⟨scopeRaw⟩, ⟨subjectRaw⟩, bf.1, bf.2, hb || bb⟩) := by
  unfold parseConventionalCommit
  rw [h1]
  dsimp only
  rw [h2]

theorem ite_breaking (hb bb : Bool) (t0 : CommitType) (h : (hb || bb) = true) :
    (if bb then CommitTypeBreaking else if hb then CommitTypeBreaking else t0) =
      CommitTypeBreaking := by
  cases hb <;> cases bb <;> simp_all

theorem ite_not_breaking (hb bb : Bool) (t0 : CommitType) (h : (hb || bb) = false) :
    (if bb then CommitTypeBreaking else if hb then CommitTypeBreaking else t0) = t0 := by
  cases hb <;> cases bb <;> simp_all

theorem incStat_total (s : CommitStatistics) (t : CommitType) :
    (incStat s t).Total = s.Total + 1 := by
  unfold incStat
  dsimp only
  split_ifs <;> rfl

theorem incStat_statsSum (s : CommitStatistics) (t : CommitType) :
    statsSum (incStat s t) = statsSum s + 1 := by
  unfold incStat statsSum
  dsimp only
  split_ifs <;> dsimp <;> omega

theorem calcStats_aux (l : List CommitInfo) :
    ∀ s : CommitStatistics,
    (List.foldl (fun st c => incStat st c.«Type») s l).Total = s.Total + l.length ∧
    statsSum (List.foldl (fun st c => incStat st c.«Type») s l) = statsSum s + l.length := by
  induction l with
  | nil => intro s; simp
  | cons c cs ih =>
    intro s
    simp only [List.foldl_cons, List.length_cons]
    obtain ⟨h1, h2⟩ := ih (incStat s c.«Type»)
    rw [h1, h2, incStat_total, incStat_statsSum]
    omega

theorem analyzeLoop_eq (cs : List GoCommit) :
    ∀ (infos : List CommitInfo) (stats : CommitStatistics),
    analyzeLoop cs (infos, stats) =
      (infos ++ (cs.filter
          (fun cm => !(goHasPrefixStr (analyzeCommit cm).Subject mergeMarker))).map analyzeCommit,
       List.foldl (fun st c => incStat st c.«Type») stats
         ((cs.filter
          (fun cm => !(goHasPrefixStr (analyzeCommit cm).Subject mergeMarker))).map
            analyzeCommit)) := by
  induction cs with
  | nil => intro infos stats; simp [analyzeLoop]
  | cons cm rest ih =>
    intro infos stats
    cases h : goHasPrefixStr (analyzeCommit cm).Subject mergeMarker with
    | true => simp [analyzeLoop, h, ih, List.filter_cons]
    | false => simp [analyzeLoop, h, ih, List.filter_cons]

theorem filterCommits_aux (includeTypes excludeTypes : List String) (l : List CommitInfo) :
    ∀ acc : List CommitInfo,
    List.foldl
      (fun acc commit =>
        if !(includeTypes.length == 0) && !(includeTypes.any (fun t => commit.«Type» == t)) then
          acc
        else if !(excludeTypes.length == 0) && excludeTypes.any (fun t => commit.«Type» == t) then
          acc
        else acc ++ [commit]) acc l =
    acc ++ l.filter (fun commit =>
        !(!(includeTypes.length == 0) && !(includeTypes.any (fun t => commit.«Type» == t))) &&
        !(!(excludeTypes.length == 0) && excludeTypes.any (fun t => commit.«Type» == t))) := by
  induction l with
  | nil => intro acc; simp
  | cons c rest ih =>
    intro acc
    simp only [List.foldl_cons, List.filter_cons]
    by_cases h1 : (!(includeTypes.length == 0) && !(includeTypes.any (fun t => c.«Type» == t)))
        = true
    · have hp : (!(!(includeTypes.length == 0) && !(includeTypes.any (fun t => c.«Type» == t))) &&
          !(!(excludeTypes.length == 0) && excludeTypes.any (fun t => c.«Type» == t))) = false := by
        rw [h1]; rfl
      rw [if_pos h1, ih, hp]
      simp
    · have h1f : (!(includeTypes.length == 0) && !(includeTypes.any (fun t => c.«Type» == t)))
          = false := by
        cases hE : (!(includeTypes.length == 0) && !(includeTypes.any (fun t => c.«Type» == t)))
        · rfl
        · exact absurd hE h1
      by_cases h2 : (!(excludeTypes.length == 0) && excludeTypes.any (fun t => c.«Type» == t))
          = true
      · have hp : (!(!(includeTypes.length == 0) &&
            !(includeTypes.any (fun t => c.«Type» == t))) &&
            !(!(excludeTypes.length == 0) && excludeTypes.any (fun t => c.«Type» == t)))
            = false := by
          rw [h1f, h2]; rfl
        rw [if_neg h1, if_pos h2, ih, hp]
        simp
      · have h2f : (!(excludeTypes.length == 0) && excludeTypes.any (fun t => c.«Type» == t))
            = false := by
          cases hE : (!(excludeTypes.length == 0) && excludeTypes.any (fun t => c.«Type» == t))
          · rfl
          · exact absurd hE h2
        have hp : (!(!(includeTypes.length == 0) &&
            !(includeTypes.any (fun t => c.«Type» == t))) &&
            !(!(excludeTypes.length == 0) && excludeTypes.any (fun t => c.«Type» == t)))
            = true := by
          rw [h1f, h2f]; rfl
        rw [if_neg h1, if_neg h2, ih, hp]
        simp

theorem collectUntilFrom_all (fromHash : Hash) (l : List GoCommit)
    (h : ∀ cm ∈ l, cm.hash ≠ fromHash) : collectUntilFrom fromHash l = l := by
  induction l with
  | nil => rfl
  | cons c rest ih =>
    have hc : (c.hash == fromHash) = false :=
      beq_eq_false_iff_ne.mpr (h c (List.mem_cons_self c rest))
    simp [collectUntilFrom, hc, ih (fun x hx => h x (List.mem_cons_of_mem _ hx))]

/-! ### Claim theorems -/

/-- C1, counterexample: the header `"foo: bar"` matches the grammar, its
lower-cased type token `"foo"` is not one of the recognized category
keywords, yet the resulting type is the raw token `"foo"`, not `Unknown`. -/
theorem c1_counterexample :
    parseHeader (goTrimSpace (firstLineOf ("foo: bar"))).data =
      some (("foo").data, [], ("bar").data) ∧
    (["feat", "fix", "docs", "style", "refactor", "test", "chore", "breaking"].all
      (fun t => !(t == ("foo" : String)))) = true ∧
    (parseConventionalCommit ("foo: bar")).type = ("foo" : CommitType) ∧
    (parseConventionalCommit ("foo: bar")).type ≠ CommitTypeUnknown := by
  refine ⟨?_, ?_, ?_, ?_⟩ <;> decide

/-- C1, amended: for a header that matches the grammar, when no
breaking-change marker fires, the resulting type is the lower-cased raw
token itself — unrecognized tokens are kept verbatim (they are only
counted under `Unknown` later, by the statistics switch), not replaced by
`Unknown` in the `CommitInfo.Type` field. -/
theorem c1_amended_raw_token_kept (msg : String) (tyRaw scopeRaw subjectRaw : List Char)
    (h2 : parseHeader (goTrimSpace (firstLineOf msg)).data = some (tyRaw, scopeRaw, subjectRaw))
    (hnb : (parseConventionalCommit msg).breaking = false) :
    (parseConventionalCommit msg).type = goToLower ⟨tyRaw⟩ := by
  obtain ⟨t, h1⟩ := goSplitLines_cons msg
  rw [parse_of_header_some msg _ _ _ _ _ h1 h2] at hnb ⊢
  dsimp only at hnb ⊢
  exact ite_not_breaking _ _ _ hnb

/-- Witness for the amended C1 at the unrecognized header `"foo: bar"`. -/
theorem c1_amended_witness :
    (parseConventionalCommit ("foo: bar")).type = goToLower ⟨("foo").data⟩ :=
  c1_amended_raw_token_kept ("foo: bar") (("foo").data) [] (("bar").data)
    (by decide) (by decide)

/-- C2, counterexample: the header `"breaking change: drop api"` contains
the case-insensitive substring `"breaking change"` but does not match the
grammar (the type run `breaking` is followed by a space), so the classifier
returns `breaking = false` and type `Unknown`, not `Breaking`. -/
theorem c2_counterexample :
    goContains (goToLower (firstLineOf ("breaking change: drop api"))) breakingMarker = true ∧
    (parseConventionalCommit ("breaking change: drop api")).breaking = false ∧
    (parseConventionalCommit ("breaking change: drop api")).type ≠ CommitTypeBreaking := by
  refine ⟨?_, ?_, ?_⟩ <;> decide

/-- C2, amended: header breaking-change detection applies only after the
header has matched the grammar; for every message whose (trimmed) header
matches and contains the case-insensitive substring `"breaking change"`,
the classifier sets `breaking = true` and forces type `Breaking`. -/
theorem c2_amended_header_breaking (msg : String) (tyRaw scopeRaw subjectRaw : List Char)
    (h2 : parseHeader (goTrimSpace (firstLineOf msg)).data = some (tyRaw, scopeRaw, subjectRaw))
    (hc : goContains (goToLower (goTrimSpace (firstLineOf msg))) breakingMarker = true) :
    (parseConventionalCommit msg).breaking = true ∧
    (parseConventionalCommit msg).type = CommitTypeBreaking := by
  obtain ⟨t, h1⟩ := goSplitLines_cons msg
  rw [parse_of_header_some msg _ _ _ _ _ h1 h2]
  dsimp only
  rw [hc]
  constructor
  · simp
  · exact ite_breaking true _ _ (by simp)

/-- Witness for the amended C2 at `"fix: a breaking change"`. -/
theorem c2_amended_witness :
    (parseConventionalCommit ("fix: a breaking change")).breaking = true ∧
    (parseConventionalCommit ("fix: a breaking change")).type = CommitTypeBreaking :=
  c2_amended_header_breaking ("fix: a breaking change") (("fix").data) []
    (("a breaking change").data) (by decide) (by decide)

/-- C3: for every commit list, the per-category counters of
`calculateStatistics` sum to `Total`, and `Total` equals the list length. -/
theorem c3_statistics_sum (commits : List CommitInfo) :
    statsSum (calculateStatistics commits) = (calculateStatistics commits).Total ∧
    (calculateStatistics commits).Total = commits.length := by
  unfold calculateStatistics
  obtain ⟨h1, h2⟩ := calcStats_aux commits emptyStats
  constructor
  · rw [h2, h1]; rfl
  · rw [h1]; simp [emptyStats]

/-- C4: for every commit message, `breaking = true` in the classifier's
output forces type `Breaking`. -/
theorem c4_breaking_forces_type (msg : String)
    (h : (parseConventionalCommit msg).breaking = true) :
    (parseConventionalCommit msg).type = CommitTypeBreaking := by
  obtain ⟨t, h1⟩ := goSplitLines_cons msg
  cases h2 : parseHeader (goTrimSpace (firstLineOf msg)).data with
  | none =>
    rw [parse_of_header_none msg _ _ h1 h2] at h
    exact absurd h (by simp)
  | some trip =>
    obtain ⟨tyRaw, scopeRaw, subjectRaw⟩ := trip
    rw [parse_of_header_some msg _ _ _ _ _ h1 h2] at h ⊢
    dsimp only at h ⊢
    exact ite_breaking _ _ _ h

/-- Witness for C4 at a commit with a `BREAKING CHANGE` footer. -/
theorem c4_breaking_forces_type_witness :
    (parseConventionalCommit ("fix: mem leak\n\nBREAKING CHANGE: api")).type =
      CommitTypeBreaking :=
  c4_breaking_forces_type ("fix: mem leak\n\nBREAKING CHANGE: api") (by decide)

/-- C5: a commit whose message's first line begins with
`"Merge pull request"` is dropped by the generation loop: its record is not
in the produced commit list, and the produced statistics are exactly the
statistics of the produced (merge-free) list, so it is counted nowhere. -/
theorem c5_merge_commits_dropped (fromRef toRef : String) (fromHash toHash : Hash)
    (now : GoTime) (walked : List GoCommit) (c : GoCommit)
    (_hmem : c ∈ walked)
    (hpre : goHasPrefixStr (firstLineOf c.message) mergeMarker = true) :
    analyzeCommit c ∉ (generateReleaseNotesFrom fromRef toRef fromHash toHash now walked).Commits ∧
    (generateReleaseNotesFrom fromRef toRef fromHash toHash now walked).Statistics =
      calculateStatistics
        ((generateReleaseNotesFrom fromRef toRef fromHash toHash now walked).Commits) := by
  have hdataM : mergeMarker.data = 'M' :: 'e' :: 'r' :: 'g' :: 'e' :: ' ' ::
      ("pull request").data := rfl
  -- the analyzed subject also carries the prefix
  have hsubj : goHasPrefixStr (analyzeCommit c).Subject mergeMarker = true := by
    obtain ⟨t, h1⟩ := goSplitLines_cons c.message
    unfold goHasPrefixStr at hpre
    rw [startsWithL_iff] at hpre
    obtain ⟨r, hr⟩ := hpre
    have hheader : (goTrimSpace (firstLineOf c.message)).data =
        mergeMarker.data ++ trimRightL r := by
      show trimRightL (trimLeftL ((firstLineOf c.message).data)) =
        mergeMarker.data ++ trimRightL r
      rw [hr, hdataM]
      simp only [List.cons_append]
      rw [trimLeftL_cons_of_nonspace _ _ (by decide)]
      show trimRightL (mergeMarker.data ++ r) = mergeMarker.data ++ trimRightL r
      exact trimRightL_append _ _ (by decide)
    have hnone : parseHeader (goTrimSpace (firstLineOf c.message)).data = none := by
      rw [hheader, hdataM]
      simp only [List.cons_append]
      exact parseHeader_after_merge _
    have hparse := parse_of_header_none c.message _ t h1 hnone
    show startsWithL mergeMarker.data ((parseConventionalCommit c.message).subject).data = true
    rw [hparse]
    show startsWithL mergeMarker.data (goTrimSpace (firstLineOf c.message)).data = true
    rw [hheader]
    exact startsWithL_append _ _
  unfold generateReleaseNotesFrom
  rw [analyzeLoop_eq]
  dsimp only
  constructor
  · intro hin
    simp only [List.nil_append, List.mem_map, List.mem_filter] at hin
    obtain ⟨c', ⟨hc'mem, hc'keep⟩, heq⟩ := hin
    have hs : (analyzeCommit c').Subject = (analyzeCommit c).Subject := by rw [heq]
    rw [hs, hsubj] at hc'keep
    simp at hc'keep
  · simp [calculateStatistics]

/-- Witness for C5 at a one-element range holding a GitHub merge commit. -/
theorem c5_merge_commits_dropped_witness :
    analyzeCommit sampleMergeCommit ∉
      (generateReleaseNotesFrom ("v1") ("v2") (List.replicate 20 1) (List.replicate 20 2)
        sampleTime [sampleMergeCommit]).Commits ∧
    (generateReleaseNotesFrom ("v1") ("v2") (List.replicate 20 1) (List.replicate 20 2)
        sampleTime [sampleMergeCommit]).Statistics =
      calculateStatistics
        ((generateReleaseNotesFrom ("v1") ("v2") (List.replicate 20 1) (List.replicate 20 2)
          sampleTime [sampleMergeCommit]).Commits) :=
  c5_merge_commits_dropped ("v1") ("v2") (List.replicate 20 1) (List.replicate 20 2)
    sampleTime [sampleMergeCommit] sampleMergeCommit (by decide) (by decide)

/-- C6, counterexample: on a two-commit log that nowhere contains the
`from` hash (disjoint histories), the walk returns a plain success carrying
every collected commit, reversed — the error component of the Go result
pair is nil, so no `DisjointHistoryWarning` (or any diagnostic) is
reported. -/
theorem c6_counterexample :
    (([c6LogA, c6LogB].all (fun cm => !(cm.hash == List.replicate 20 255))) = true) ∧
    getCommitsBetween (List.replicate 20 255) [c6LogA, c6LogB] =
      Except.ok [c6LogB, c6LogA] := by
  refine ⟨by decide, by rfl⟩

/-- C6, amended: when `from` is unreachable from `to` (its hash never
occurs in the log), the walk terminates, collects the whole ancestry of
`to` down to the root, reverses it, and returns it with a nil error — no
warning of any kind is produced; the disjoint case is indistinguishable
from success. -/
theorem c6_amended_disjoint_silent (fromHash : Hash) (logCommits : List GoCommit)
    (h : ∀ cm ∈ logCommits, cm.hash ≠ fromHash) :
    getCommitsBetween fromHash logCommits = .ok logCommits.reverse := by
  unfold getCommitsBetween
  rw [collectUntilFrom_all fromHash logCommits h]

/-- Witness for the amended C6 at a concrete disjoint one-commit log. -/
theorem c6_amended_witness :
    getCommitsBetween (List.replicate 20 8) [c6Solo] =
      .ok (([c6Solo] : List GoCommit).reverse) :=
  c6_amended_disjoint_silent (List.replicate 20 8) [c6Solo] (by decide)

/-- C7, counterexample: in a repository with no named references, no tags,
and a single commit with an unrelated hash, the 8-character reference
`"abcdef12"` still resolves successfully — to the zero-padded hex decode of
the prefix, which is not the identifier of any commit in the repository. -/
theorem c7_counterexample :
    resolveReference [] [] ("abcdef12") =
      Except.ok ([171, 205, 239, 18] ++ List.replicate 16 0) ∧
    (([⟨List.replicate 20 9, "ann", "ann@example.com", sampleTime, "feat: y"⟩] :
        List GoCommit).all
      (fun cm => !(cm.hash == ([171, 205, 239, 18] ++ List.replicate 16 0 : Hash)))) = true := by
  refine ⟨by rfl, by decide⟩

/-- C7, amended: for a reference that is neither a named reference nor a
tag, resolution fails when its length is below 7 bytes; otherwise it
succeeds exactly when the hex decode of the reference is non-zero, and the
result is that zero-padded decode — the repository's commits are never
consulted. -/
theorem c7_amended_prefix_resolution (refs tags : List (String × Hash)) (ref : String)
    (h1 : lookupRef refs ref = none) (h2 : lookupRef tags ref = none) :
    (ref.utf8ByteSize < 7 →
      resolveReference refs tags ref = .error ("could not resolve reference: " ++ ref)) ∧
    (7 ≤ ref.utf8ByteSize → newHash ref ≠ zeroHash →
      resolveReference refs tags ref = .ok (newHash ref)) ∧
    (newHash ref = zeroHash →
      resolveReference refs tags ref = .error ("could not resolve reference: " ++ ref)) := by
  unfold resolveReference
  rw [h1, h2]
  refine ⟨?_, ?_, ?_⟩
  · intro hlt
    rw [if_neg (by omega)]
  · intro hge hnz
    rw [if_pos hge, if_pos hnz]
  · intro hz
    by_cases hge : 7 ≤ ref.utf8ByteSize
    · rw [if_pos hge, if_neg (fun hne => hne hz)]
    · rw [if_neg hge]

/-- Witness for the amended C7 at the 3-character reference `"abc"`. -/
theorem c7_amended_witness :
    resolveReference [] [] ("abc") =
      Except.error ("could not resolve reference: " ++ ("abc")) :=
  (c7_amended_prefix_resolution [] [] ("abc") rfl rfl).1 (by decide)

set_option maxRecDepth 8192 in
/-- C8: `formatJSON` is not injective — two documents that differ in one
commit's scope/subject split render to the very same text (scope and
subject are embedded verbatim, without escaping), so no decoder can
reproduce every field of every document: the json rendering is not a
lossless round-trippable encoding for arbitrary field contents. -/
theorem c8_formatJSON_not_injective :
    c8doc1 ≠ c8doc2 ∧ formatJSON c8doc1 = formatJSON c8doc2 := by
  refine ⟨by decide, by rfl⟩

/-- C9, counterexample: for the message `" hello world "` the header fails
the grammar and the classifier returns subject `"hello world"` — the
trimmed line, not the entire header line verbatim. -/
theorem c9_counterexample :
    parseHeader (goTrimSpace (firstLineOf (" hello world "))).data = none ∧
    (parseConventionalCommit (" hello world ")).subject ≠ firstLineOf (" hello world ") := by
  refine ⟨?_, ?_⟩ <;> decide

/-- C9, amended: when the (trimmed) header does not match the grammar,
classification returns — without any error, it is a total function — type
`Unknown`, subject equal to the whitespace-trimmed first line, and empty
body and footer, even when the raw message contains further lines. -/
theorem c9_amended_unparsed_header (msg : String)
    (h2 : parseHeader (goTrimSpace (firstLineOf msg)).data = none) :
    parseConventionalCommit msg =
      ⟨CommitTypeUnknown, "", goTrimSpace (firstLineOf msg), "", "", false⟩ := by
  obtain ⟨t, h1⟩ := goSplitLines_cons msg
  exact parse_of_header_none msg _ t h1 h2

/-- Witness for the amended C9 at a multi-line message with an unparseable
header. -/
theorem c9_amended_witness :
    parseConventionalCommit ("no colon here\nextra: line") =
      ⟨CommitTypeUnknown, "", goTrimSpace (firstLineOf ("no colon here\nextra: line")),
       "", "", false⟩ :=
  c9_amended_unparsed_header ("no colon here\nextra: line") (by decide)

/-- C10: a commit whose type appears in both the include and the exclude
list is omitted from `filterCommits`' result (exclusion wins), and with
both lists empty the input list is returned unchanged. -/
theorem c10_exclude_precedence (commits : List CommitInfo)
    (includeTypes excludeTypes : List String) (c : CommitInfo) (_hmem : c ∈ commits)
    (hinc : includeTypes.any (fun t => c.«Type» == t) = true)
    (hexc : excludeTypes.any (fun t => c.«Type» == t) = true) :
    c ∉ filterCommits commits includeTypes excludeTypes ∧
    filterCommits commits [] [] = commits := by
  constructor
  · have hincne : (includeTypes.length == 0) = false := by
      cases includeTypes with
      | nil => simp at hinc
      | cons a l => simp
    have hexcne : (excludeTypes.length == 0) = false := by
      cases excludeTypes with
      | nil => simp at hexc
      | cons a l => simp
    unfold filterCommits
    rw [if_neg (by rw [hincne]; simp)]
    rw [filterCommits_aux]
    intro hin
    rw [List.nil_append, List.mem_filter] at hin
    obtain ⟨-, hpred⟩ := hin
    rw [hincne, hexcne, hinc, hexc] at hpred
    simp at hpred
  · rfl

/-- Witness for C10 at a `feat` commit with `feat` in both lists. -/
theorem c10_exclude_precedence_witness :
    c10Commit ∉ filterCommits [c10Commit] (["feat"]) (["feat"]) ∧
    filterCommits [c10Commit] [] [] = [c10Commit] :=
  c10_exclude_precedence [c10Commit] (["feat"]) (["feat"]) c10Commit
    (by decide) (by decide) (by decide)

end Drivio
